import Mathlib

/-!
Shallow embedding of the sanctions-check frontend bulk-screening component
(`frontend/src/components/BulkScreening.js`) and proofs about its rendering,
export, selection and pagination logic.

JS numbers are modelled as exact rationals (`ℚ`), with `NaN` represented by
`none` in `Option ℚ` where a division can be undefined.  JS strings are
modelled as `List Char` (called `JStr`) where character-level scanning
matters, and as Lean `String` elsewhere.
-/

namespace SanctionsCheck

/-- JS strings at the character level. -/
abbrev JStr := List Char

/-- Models JS division `a / b`: `0 / 0` is `NaN` and `x / 0` is `±Infinity`;
both are non-finite, represented by `none`. -/
def jsDiv (a b : ℚ) : Option ℚ :=
  if b = 0 then none else some (a / b)

/-- Value displayed by `Number.prototype.toFixed(1)` applied to the exact
rational value: rounding to one decimal place. -/
def toFixed1 (q : ℚ) : ℚ :=
  (round (10 * q) : ℤ) / 10

/-- Models the JS expression `v || d` for a possibly-missing number `v`
(`undefined`, `NaN` and `0` are falsy; `0` is modelled as a present `0`,
which the `||` sends to `d`). -/
def jsOrNum (v : Option ℚ) (d : ℚ) : ℚ :=
  match v with
  | none => d
  | some x => if x = 0 then d else x

/-- Models the JS expression `v || d` for a possibly-missing string `v`
(`undefined`, `null` and the empty string are falsy). -/
def jsOrStr (v : Option String) (d : String) : String :=
  match v with
  | none => d
  | some s => if s = "" then d else s

/-- Truthiness of a possibly-missing JS string (`undefined`/`null` and `""`
are falsy). -/
def jsTruthyStr : Option String → Bool
  | none => false
  | some s => !(s == "")

/-- Models `String.prototype.endsWith(suffix)`. -/
def jsEndsWith (s suffix : String) : Bool :=
  suffix.data.isSuffixOf s.data

/-- Models `Array.prototype.slice(start, stop)` on a list. -/
def jsSlice {α : Type} (l : List α) (start stop : ℕ) : List α :=
  (l.drop start).take (stop - start)

/-! ### Data model

The JSON shapes the backend hands the component, as the component reads
them: every field access is optional-chained in the source, so every field
is an `Option`. -/

/-- The `confidence` object of a match (`match.confidence.overall`). -/
structure Confidence where
  overall : Option ℚ
deriving DecidableEq, Repr

/-- A `MatchCandidate` as the renderer consumes it. -/
structure MatchCandidate where
  confidence : Option Confidence
  recommendation : Option String
deriving DecidableEq, Repr

/-- The echoed `input` record of a screening result. -/
structure ScreeningInput where
  nombre : Option String
  cedula : Option String
  pais : Option String
deriving DecidableEq, Repr

/-- A `ScreeningResult` as the component consumes it. -/
structure ScreeningResult where
  input : Option ScreeningInput
  is_hit : Bool
  hit_count : ℕ
  «matches» : List MatchCandidate
deriving DecidableEq, Repr

/-! ### Individual report rendering (`generateReportHTML`)

From `const confidence = match.confidence || {};`
`const confidenceLevel = confidence.overall || 0;`
`const confidenceClass = confidenceLevel >= 90 ? 'high' : confidenceLevel >= 70 ? 'medium' : 'low';`
and the rendered `${confidenceLevel.toFixed(1)}%`. -/

/-- Models `match.confidence || {}`. -/
def jsOrConf (c : Option Confidence) : Confidence :=
  c.getD ⟨none⟩

/-- The numeric confidence value the renderer binds:
`(match.confidence || {}).overall || 0`. -/
def confidenceLevel (m : MatchCandidate) : ℚ :=
  jsOrNum (jsOrConf m.confidence).overall 0

/-- The numeric value printed for a match: `confidenceLevel.toFixed(1)`. -/
def renderedConfidence (m : MatchCandidate) : ℚ :=
  toFixed1 (confidenceLevel m)

/-- The CSS class chosen for a confidence value:
`c >= 90 ? 'high' : c >= 70 ? 'medium' : 'low'`. -/
def confidenceClass (c : ℚ) : String :=
  if c ≥ 90 then "high" else if c ≥ 70 then "medium" else "low"

/-- Severity rank of a confidence band, for stating monotonicity. -/
def classRank (s : String) : ℕ :=
  if s = "high" then 2 else if s = "medium" then 1 else 0

/-! ### Bulk report rendering (`generateBulkReportHTML`) -/

/-- `const hits = results.filter(r => r.is_hit);` -/
def bulkHits (results : List ScreeningResult) : List ScreeningResult :=
  results.filter (·.is_hit)

/-- `const clears = results.filter(r => !r.is_hit);` -/
def bulkClears (results : List ScreeningResult) : List ScreeningResult :=
  results.filter (fun r => !r.is_hit)

/-- The "Tasa de Hits" value the bulk report displays:
`((hits.length / results.length) * 100).toFixed(1)`.
`none` means the division produced `NaN` (rendered as the text `NaN`). -/
def bulkHitRateDisplay (results : List ScreeningResult) : Option ℚ :=
  (jsDiv ((bulkHits results).length : ℚ) (results.length : ℚ)).map
    (fun q => toFixed1 (q * 100))

/-! ### Effective recommendation (`BulkResultRow` and `exportResults`)

Both sites evaluate
`r.is_hit && r.matches?.[0]?.recommendation ? r.matches[0].recommendation : 'APPROVE'`. -/

/-- Recommendation shown in a result row (`BulkResultRow`). -/
def bulkRowRecommendation (r : ScreeningResult) : String :=
  if r.is_hit && jsTruthyStr (r.«matches».head?.bind (·.recommendation)) then
    (r.«matches».head?.bind (·.recommendation)).getD "APPROVE"
  else "APPROVE"

/-- Recommendation written to the CSV export (`exportResults`). -/
def exportRecommendation (r : ScreeningResult) : String :=
  if r.is_hit && jsTruthyStr (r.«matches».head?.bind (·.recommendation)) then
    (r.«matches».head?.bind (·.recommendation)).getD "APPROVE"
  else "APPROVE"

/-! ### CSV line parsing (`parseCSVLine` inside `parseCSVPreview`)

The source loop scans a line character by character with an `inQuotes` flag,
doubling-aware quote handling, and a `.trim()` applied to every pushed
field. -/

/-- The whitespace characters removed by `String.prototype.trim` (ECMAScript
WhiteSpace and LineTerminator code points). -/
def jsWhitespace (c : Char) : Bool :=
  c = ' ' ∨ c = '\t' ∨ c = '\n' ∨ c = '\r' ∨ c.toNat = 11 ∨ c.toNat = 12 ∨
  c.toNat = 160 ∨ c.toNat = 5760 ∨ (8192 ≤ c.toNat ∧ c.toNat ≤ 8202) ∨
  c.toNat = 8232 ∨ c.toNat = 8233 ∨ c.toNat = 8239 ∨ c.toNat = 8287 ∨
  c.toNat = 12288 ∨ c.toNat = 65279

/-- Models `String.prototype.trim` on a character list. -/
def jsTrim (l : JStr) : JStr :=
  ((l.dropWhile jsWhitespace).reverse.dropWhile jsWhitespace).reverse

/-- The scanning loop of `parseCSVLine`: `l` is the remaining input,
`cur` the accumulated `current`, `inQ` the `inQuotes` flag and `vals` the
`values` array pushed so far.  After the loop the final `current.trim()` is
pushed. -/
def parseCSVLoop : JStr → JStr → Bool → List JStr → List JStr
  | [], cur, _, vals => vals ++ [jsTrim cur]
  | c :: rest, cur, inQ, vals =>
    if c = '"' then
      if inQ then
        match rest with
        | c2 :: rest2 =>
          if c2 = '"' then parseCSVLoop rest2 (cur ++ ['"']) true vals
          else parseCSVLoop (c2 :: rest2) cur false vals
        | [] => parseCSVLoop [] cur false vals
      else parseCSVLoop rest cur true vals
    else if c = ',' ∧ inQ = false then parseCSVLoop rest [] false (vals ++ [jsTrim cur])
    else parseCSVLoop rest (cur ++ [c]) inQ vals
termination_by l => l.length
decreasing_by all_goals simp_arith

/-- `parseCSVLine(line)` on character lists. -/
def parseCSVLineL (line : JStr) : List JStr :=
  parseCSVLoop line [] false []

/-! ### CSV field escaping (`escapeCSVField` in `exportResults`) -/

/-- The quoting test of `escapeCSVField`:
`str.includes(',') || str.includes('"') || str.includes('\n') || str.includes('\r')`. -/
def needsQuoting (l : JStr) : Bool :=
  l.any (fun c => c = ',' ∨ c = '"' ∨ c = '\n' ∨ c = '\r')

/-- `str.replace(/"/g, '""')`: every double quote doubled. -/
def doubleQuotes (l : JStr) : JStr :=
  l.flatMap (fun c => if c = '"' then ['"', '"'] else [c])

/-- `escapeCSVField(field)`: `null`/`undefined` (here `none`) becomes the
empty string; a field containing a comma, quote, newline or carriage return
is wrapped in quotes with inner quotes doubled; anything else is returned
unchanged. -/
def escapeCSVFieldL (field : Option JStr) : JStr :=
  match field with
  | none => []
  | some l => if needsQuoting l then '"' :: (doubleQuotes l ++ ['"']) else l

/-- `Array.prototype.join(',')` over the escaped fields of a CSV row. -/
def joinComma : List JStr → JStr
  | [] => []
  | [f] => f
  | f :: g :: fs => f ++ ',' :: joinComma (g :: fs)

/-- The spec-side description of when `escapeCSVField` must quote: the field
contains a comma, double quote, newline or carriage return. -/
def containsSpecial (l : JStr) : Prop :=
  ',' ∈ l ∨ '"' ∈ l ∨ '\n' ∈ l ∨ '\r' ∈ l

instance (l : JStr) : Decidable (containsSpecial l) := by
  unfold containsSpecial; infer_instance

/-! ### CSV preview parsing (`parseCSVPreview`) -/

/-- `text.split('\n')`. -/
def jsSplitNl (s : String) : List String :=
  s.split (· = '\n')

/-- `String.prototype.trim` on Lean strings. -/
def jsTrimStr (s : String) : String :=
  ⟨jsTrim s.data⟩

/-- `parseCSVLine` on Lean strings. -/
def parseCSVLine (line : String) : List String :=
  (parseCSVLineL line.data).map (fun l => ⟨l⟩)

/-- The parsed preview stored in `filePreview`; the JS row objects
(`row[h] = values[idx] || ''`) are modelled as association lists in header
order. -/
structure FilePreview where
  headers : List String
  rows : List (List (String × String))
  totalRows : ℕ
deriving DecidableEq, Repr

/-- The preview rows: for each of the first five non-header lines, pair each
header with `values[idx] || ''`. -/
def previewRows (headers : List String) (lines : List String) : List (List (String × String)) :=
  ((lines.drop 1).take 5).map (fun line =>
    let values := parseCSVLine line
    headers.enum.map (fun p => (p.2, jsOrStr (values.get? p.1) "")))

/-- The `reader.onload` body of `parseCSVPreview`: split into non-blank
lines, lowercase the parsed header line, and build up to five preview rows. -/
def parseCSVPreview (text : String) : FilePreview :=
  let lines := (jsSplitNl text).filter (fun l => jsTrimStr l ≠ "")
  match lines with
  | [] => ⟨[], [], 0⟩
  | l0 :: _ =>
    let headers := (parseCSVLine l0).map String.toLower
    ⟨headers, previewRows headers lines, lines.length - 1⟩

/-! ### Component state and `validateAndSetFile` -/

/-- The name, size and content of a selected `File`. -/
structure FileInfo where
  name : String
  size : ℕ
  content : String
deriving DecidableEq, Repr

/-- The `useState` pieces of the `BulkScreening` component that
`validateAndSetFile` and its callers touch. -/
structure BulkState where
  file : Option FileInfo
  loading : Bool
  results : Option (List ScreeningResult)
  error : Option String
  selectedResults : Finset ℕ
  filePreview : Option FilePreview
  currentPage : ℕ
  pageSize : ℕ
  filterType : String
deriving DecidableEq

/-- `validateAndSetFile(selectedFile)`: reject non-`.csv` names and files
over `10 * 1024 * 1024` bytes with an error and no other state change;
otherwise accept the file, clear error/results/selection, reset the page
and parse the preview (the asynchronous `FileReader` completion is applied
directly). -/
def validateAndSetFile (st : BulkState) (f : FileInfo) : BulkState :=
  if ¬ (jsEndsWith f.name ".csv") then
    { st with error := some "Por favor, seleccione un archivo CSV" }
  else if f.size > 10 * 1024 * 1024 then
    { st with error := some "El archivo no debe exceder 10MB" }
  else
    { st with file := some f, error := none, results := none,
              selectedResults := ∅, currentPage := 1,
              filePreview := some (parseCSVPreview f.content) }

/-! ### Filtering and pagination -/

/-- `filteredResults`: `[]` when there are no results, otherwise the results
filtered by `filterType` (`'hits'`, `'clear'`, or everything). -/
def filteredResults (results : Option (List ScreeningResult)) (filterType : String) :
    List ScreeningResult :=
  match results with
  | none => []
  | some rs =>
    if filterType = "hits" then rs.filter (·.is_hit)
    else if filterType = "clear" then rs.filter (fun r => !r.is_hit)
    else rs

/-- `totalPages = Math.ceil(filteredResults.length / pageSize)` (exact
rational quotient). -/
def totalPages (n size : ℕ) : ℕ :=
  (⌈(n : ℚ) / (size : ℚ)⌉).toNat

/-- `startIndex = (currentPage - 1) * pageSize`. -/
def startIndex (currentPage pageSize : ℕ) : ℕ :=
  (currentPage - 1) * pageSize

/-- `endIndex = Math.min(startIndex + pageSize, filteredResults.length)`. -/
def endIndex (currentPage pageSize n : ℕ) : ℕ :=
  min (startIndex currentPage pageSize + pageSize) n

/-- `paginatedResults = filteredResults.slice(startIndex, endIndex)`. -/
def paginatedResults (filtered : List ScreeningResult) (currentPage pageSize : ℕ) :
    List ScreeningResult :=
  jsSlice filtered (startIndex currentPage pageSize)
    (endIndex currentPage pageSize filtered.length)

/-! ### Selection (`toggleSelection`) and printing (`printSelected`) -/

/-- The `setSelectedResults(prev => ...)` updater inside `toggleSelection`,
applied at the computed real index: copy the set, then delete the index if
present and add it otherwise. -/
def toggleSelectionUpdate (prev : Finset ℕ) (realIndex : ℕ) : Finset ℕ :=
  if realIndex ∈ prev then prev.erase realIndex else insert realIndex prev

/-- The report payload built by `printSelected`:
`Array.from(selectedResults).sort((a, b) => a - b).map(i => results.results[i]).filter(Boolean)`.
The JS `Set` is modelled as its insertion-ordered element list `selected`;
the numeric-comparator sort is an ascending sort; indexing past the end
yields `undefined`, removed by `.filter(Boolean)`. -/
def printSelectedData (results : List ScreeningResult) (selected : List ℕ) :
    List ScreeningResult :=
  (List.insertionSort (· ≤ ·) selected).filterMap (fun i => results.get? i)

/-! ### CSV export rows (`exportResults`) -/

/-- One data row of the exported CSV (before joining with commas). -/
def exportRow (r : ScreeningResult) : List JStr :=
  [escapeCSVFieldL (some (jsOrStr (r.input.bind (·.nombre)) "").data),
   escapeCSVFieldL (some (jsOrStr (r.input.bind (·.cedula)) "").data),
   escapeCSVFieldL (some (jsOrStr (r.input.bind (·.pais)) "").data),
   (if r.is_hit then "COINCIDENCIA" else "LIMPIO").data,
   (toString r.hit_count).data,
   (exportRecommendation r).data]

/-! ### Sample data -/

/-- A screening result with one high-confidence match. -/
def sampleHit : ScreeningResult :=
  ⟨none, true, 1, [⟨some ⟨some 95⟩, some "REJECT"⟩]⟩

/-- A screening result with no matches. -/
def sampleClear : ScreeningResult :=
  ⟨none, false, 0, []⟩

/-- A bulk batch of three results with exactly one hit. -/
def sampleThree : List ScreeningResult :=
  [sampleHit, sampleClear, sampleClear]

/-- A component state with no file selected yet. -/
def sampleState : BulkState :=
  ⟨none, false, none, none, ∅, none, 1, 10, "all"⟩

/-! ## Theorems -/

/-- Evaluation helper: the hit rate displayed over `sampleThree`. -/
theorem sampleThree_display : bulkHitRateDisplay sampleThree = some (333 / 10) := by
  have h1 : (bulkHits sampleThree).length = 1 := rfl
  have h3 : sampleThree.length = 3 := rfl
  unfold bulkHitRateDisplay jsDiv
  rw [h1, h3]
  norm_num [toFixed1, round_eq]

/-- C1 (counterexample): the bulk report's displayed hit rate is not as
claimed: over zero results the division yields `NaN` (`none`), not `0`, and
over three results with one hit the displayed value is `33.3`, which is not
`100 * 1 / 3`. -/
theorem bulk_hit_rate_claim_false :
    bulkHitRateDisplay ([] : List ScreeningResult) = none ∧
    bulkHitRateDisplay sampleThree = some (333 / 10) ∧
    (333 / 10 : ℚ) ≠ 100 * 1 / 3 := by
  refine ⟨rfl, sampleThree_display, by norm_num⟩

/-- C1 (amended): for every bulk report, the displayed hit rate equals
`100 * hits / total` rounded to one decimal place (`toFixed(1)`) when the
total is positive, and is `NaN` (undefined, modelled `none`) when the
report is generated over zero results. -/
theorem bulkHitRateDisplay_eq (results : List ScreeningResult) :
    bulkHitRateDisplay results =
      if results.length = 0 then none
      else some (toFixed1 (100 * ((bulkHits results).length : ℚ) / (results.length : ℚ))) := by
  unfold bulkHitRateDisplay jsDiv
  by_cases h : results.length = 0
  · simp [h]
  · have h' : ((results.length : ℚ)) ≠ 0 := by exact_mod_cast h
    have harg : ((bulkHits results).length : ℚ) / (results.length : ℚ) * 100 =
        100 * ((bulkHits results).length : ℚ) / (results.length : ℚ) := by ring
    simp [h, h', harg]

/-- C6 (counterexample): over three results with exactly one hit, the bulk
report does not display `33.33`. -/
theorem hit_rate_three_one_not_33_33 :
    sampleThree.length = 3 ∧ (bulkHits sampleThree).length = 1 ∧
    bulkHitRateDisplay sampleThree ≠ some (3333 / 100) := by
  refine ⟨rfl, rfl, ?_⟩
  rw [sampleThree_display]
  intro h
  rw [Option.some_inj] at h
  norm_num at h

/-- C6 (amended): over three results with exactly one hit, the bulk report
displays a hit rate of `33.3` (one-decimal `toFixed(1)` precision). -/
theorem hit_rate_three_one_displays_33_3 :
    sampleThree.length = 3 ∧ (bulkHits sampleThree).length = 1 ∧
    bulkHitRateDisplay sampleThree = some (333 / 10) :=
  ⟨rfl, rfl, sampleThree_display⟩

/-- C2: the confidence value a rendered match card shows is the candidate's
`confidence.overall` exactly as received (a missing confidence renders as
`0`); the renderer applies only one-decimal display formatting — within
`1/20` of the value — and never rescales it. -/
theorem confidence_displayed_unrescaled (m : MatchCandidate) (c : ℚ) :
    ((jsOrConf m.confidence).overall = some c →
      confidenceLevel m = c ∧ |renderedConfidence m - c| ≤ 1 / 20) ∧
    ((jsOrConf m.confidence).overall = none →
      confidenceLevel m = 0 ∧ renderedConfidence m = 0) := by
  constructor
  · intro h
    have hlevel : confidenceLevel m = c := by
      unfold confidenceLevel jsOrNum
      rw [h]
      by_cases hc : c = 0 <;> simp [hc]
    refine ⟨hlevel, ?_⟩
    unfold renderedConfidence toFixed1
    rw [hlevel]
    have hr : |(round (10 * c) : ℚ) - 10 * c| ≤ 1 / 2 := by
      rw [abs_sub_comm]
      exact abs_sub_round (10 * c)
    have : ((round (10 * c) : ℤ) : ℚ) / 10 - c = (((round (10 * c) : ℤ) : ℚ) - 10 * c) / 10 := by
      ring
    rw [this, abs_div]
    rw [abs_of_pos (show (0 : ℚ) < 10 by norm_num)]
    linarith
  · intro h
    have hlevel : confidenceLevel m = 0 := by
      unfold confidenceLevel jsOrNum
      rw [h]
    refine ⟨hlevel, ?_⟩
    unfold renderedConfidence toFixed1
    rw [hlevel]
    norm_num

/-- C2 (witness): a match received with `confidence.overall = 87` has its
level bound to `87` and renders within `1/20` of `87`. -/
theorem confidence_displayed_unrescaled_witness :
    confidenceLevel ⟨some ⟨some 87⟩, none⟩ = 87 ∧
    |renderedConfidence ⟨some ⟨some 87⟩, none⟩ - 87| ≤ 1 / 20 :=
  (confidence_displayed_unrescaled ⟨some ⟨some 87⟩, none⟩ 87).1 rfl

/-- C3: both the result rows and the CSV export surface
`matches[0].recommendation` as the effective recommendation whenever
`is_hit` is true and the top match carries a (non-empty) recommendation,
and surface `APPROVE` whenever `is_hit` is false. -/
theorem effective_recommendation_rule (r : ScreeningResult) (m : MatchCandidate) (s : String) :
    (r.is_hit = false →
      bulkRowRecommendation r = "APPROVE" ∧ exportRecommendation r = "APPROVE") ∧
    (r.is_hit = true → r.«matches».head? = some m → m.recommendation = some s → s ≠ "" →
      bulkRowRecommendation r = s ∧ exportRecommendation r = s) := by
  constructor
  · intro h
    constructor <;> simp [bulkRowRecommendation, exportRecommendation, h]
  · intro h h1 h2 h3
    have hexp : r.«matches».head?.bind (·.recommendation) = some s := by
      rw [h1]
      exact h2
    have hbe : (s == "") = false := by
      simp [h3]
    constructor <;>
      simp [bulkRowRecommendation, exportRecommendation, h, hexp, jsTruthyStr, hbe]

/-- C3 (witness): for a hit whose top match recommends `REJECT`, both the
row and the export show `REJECT`. -/
theorem effective_recommendation_rule_witness :
    bulkRowRecommendation sampleHit = "REJECT" ∧
    exportRecommendation sampleHit = "REJECT" :=
  (effective_recommendation_rule sampleHit ⟨some ⟨some 95⟩, some "REJECT"⟩ "REJECT").2
    rfl rfl rfl (by decide)

/-- C4: the confidence bands are induced by the thresholds `70` and `90`,
partition the whole `[0, 100]` domain — `[0, 70)` low, `[70, 90)` medium,
`[90, 100]` high, with no gaps and no overlaps — and a higher confidence
never falls in a less severe band. -/
theorem confidence_bands_partition (c c' : ℚ) (h0 : 0 ≤ c) (h100 : c ≤ 100) :
    ((confidenceClass c = "low" ↔ c < 70) ∧
     (confidenceClass c = "medium" ↔ 70 ≤ c ∧ c < 90) ∧
     (confidenceClass c = "high" ↔ 90 ≤ c)) ∧
    (c ≤ c' → classRank (confidenceClass c) ≤ classRank (confidenceClass c')) := by
  constructor
  · unfold confidenceClass
    split_ifs with h1 h2
    · refine ⟨⟨fun h => by simp_all, fun h => by linarith⟩,
        ⟨fun h => by simp_all, fun h => by linarith⟩, ⟨fun _ => h1, fun _ => rfl⟩⟩
    · refine ⟨⟨fun h => by simp_all, fun h => by linarith⟩,
        ⟨fun _ => ⟨h2, by linarith⟩, fun _ => rfl⟩, ⟨fun h => by simp_all, fun h => by linarith⟩⟩
    · refine ⟨⟨fun _ => by linarith, fun _ => rfl⟩,
        ⟨fun h => by simp_all, fun h => by push_neg at h2; linarith [h.1]⟩,
        ⟨fun h => by simp_all, fun h => by linarith⟩⟩
  · intro hle
    by_cases h90 : c ≥ 90
    · have h90' : c' ≥ 90 := le_trans h90 hle
      simp [confidenceClass, h90, h90']
    · by_cases h70 : c ≥ 70
      · have h70' : c' ≥ 70 := le_trans h70 hle
        by_cases h90' : c' ≥ 90
        · simp [confidenceClass, classRank, h90, h70, h90']
        · simp [confidenceClass, classRank, h90, h70, h90', h70']
      · have hc0 : classRank (confidenceClass c) = 0 := by
          simp [confidenceClass, classRank, h90, h70]
        rw [hc0]
        exact Nat.zero_le _

/-- C4 (witness): monotonicity applied at `75 ≤ 95`. -/
theorem confidence_bands_partition_witness :
    classRank (confidenceClass 75) ≤ classRank (confidenceClass 95) :=
  (confidence_bands_partition 75 95 (by norm_num) (by norm_num)).2 (by norm_num)

/-- C5: a selected file whose name does not end in `.csv`, or whose size
exceeds 10 MiB, is rejected up front: an error message is set and every
other piece of component state — accepted file, results, selection,
preview, loading flag, page — is left unchanged, so no upload or
processing is started. -/
theorem invalid_file_rejected_up_front (st : BulkState) (f : FileInfo)
    (h : jsEndsWith f.name ".csv" = false ∨ 10 * 1024 * 1024 < f.size) :
    (validateAndSetFile st f).error.isSome = true ∧
    (validateAndSetFile st f).file = st.file ∧
    (validateAndSetFile st f).results = st.results ∧
    (validateAndSetFile st f).selectedResults = st.selectedResults ∧
    (validateAndSetFile st f).filePreview = st.filePreview ∧
    (validateAndSetFile st f).loading = st.loading ∧
    (validateAndSetFile st f).currentPage = st.currentPage ∧
    (validateAndSetFile st f).pageSize = st.pageSize ∧
    (validateAndSetFile st f).filterType = st.filterType := by
  unfold validateAndSetFile
  rcases h with h | h
  · simp [h]
  · by_cases hn : jsEndsWith f.name ".csv"
    · simp [hn, h]
    · simp [hn]

/-- C5 (witness): a 5-byte file named `data.txt` is rejected with an error
and the empty initial state otherwise untouched. -/
theorem invalid_file_rejected_up_front_witness :
    (validateAndSetFile sampleState ⟨"data.txt", 5, "x"⟩).error.isSome = true ∧
    (validateAndSetFile sampleState ⟨"data.txt", 5, "x"⟩).file = sampleState.file ∧
    (validateAndSetFile sampleState ⟨"data.txt", 5, "x"⟩).results = sampleState.results ∧
    (validateAndSetFile sampleState ⟨"data.txt", 5, "x"⟩).selectedResults =
      sampleState.selectedResults ∧
    (validateAndSetFile sampleState ⟨"data.txt", 5, "x"⟩).filePreview = sampleState.filePreview ∧
    (validateAndSetFile sampleState ⟨"data.txt", 5, "x"⟩).loading = sampleState.loading ∧
    (validateAndSetFile sampleState ⟨"data.txt", 5, "x"⟩).currentPage = sampleState.currentPage ∧
    (validateAndSetFile sampleState ⟨"data.txt", 5, "x"⟩).pageSize = sampleState.pageSize ∧
    (validateAndSetFile sampleState ⟨"data.txt", 5, "x"⟩).filterType = sampleState.filterType :=
  invalid_file_rejected_up_front sampleState ⟨"data.txt", 5, "x"⟩ (Or.inl (by decide))

/-- Arithmetic helper: `Math.ceil(n / s)` as a natural ceiling division. -/
theorem totalPages_eq (n s : ℕ) (hs : 0 < s) : totalPages n s = (n + s - 1) / s := by
  have hsq : (0 : ℚ) < (s : ℚ) := by exact_mod_cast hs
  have key1 : n ≤ ((n + s - 1) / s) * s := by
    have hd := Nat.div_add_mod (n + s - 1) s
    have hm : (n + s - 1) % s < s := Nat.mod_lt _ hs
    rw [mul_comm]
    generalize hp : s * ((n + s - 1) / s) = p at hd ⊢
    omega
  have key2 : ((n + s - 1) / s) * s < n + s := by
    have hb := Nat.div_mul_le_self (n + s - 1) s
    generalize hp : ((n + s - 1) / s) * s = p at hb ⊢
    omega
  unfold totalPages
  generalize hq : (n + s - 1) / s = q at key1 key2 ⊢
  have hceil : ⌈(n : ℚ) / (s : ℚ)⌉ = (q : ℤ) := by
    rw [Int.ceil_eq_iff]
    have k1 : ((n : ℚ)) ≤ (q : ℚ) * s := by exact_mod_cast key1
    have k2 : ((q : ℚ)) * s < (n : ℚ) + s := by exact_mod_cast key2
    constructor
    · rw [lt_div_iff₀ hsq]
      push_cast
      linarith
    · rw [div_le_iff₀ hsq]
      push_cast
      linarith
  rw [hceil, Int.toNat_natCast]

/-- List helper: the `⌈len / s⌉` slices of width `s` concatenate back to the
whole list. -/
theorem pages_join {α : Type} (s : ℕ) (hs : 0 < s) (l : List α) :
    ((List.range ((l.length + s - 1) / s)).map (fun k => (l.drop (k * s)).take s)).flatten = l := by
  suffices h : ∀ (P : ℕ) (l : List α), (l.length + s - 1) / s = P →
      ((List.range P).map (fun k => (l.drop (k * s)).take s)).flatten = l by
    exact h _ l rfl
  intro P
  induction P with
  | zero =>
    intro l hP
    have hlen : l.length = 0 := by
      by_contra hne
      have h1 : s ≤ l.length + s - 1 := by omega
      have h2 : l.length + s - 1 < s := (Nat.div_eq_zero_iff hs).mp hP
      omega
    rw [List.length_eq_zero.mp hlen]
    simp
  | succ P ih =>
    intro l hP
    have hlen1 : 1 ≤ l.length := by
      by_contra hne
      have h0 : l.length = 0 := by omega
      rw [h0] at hP
      have : (0 + s - 1) / s = 0 := Nat.div_eq_of_lt (by omega)
      omega
    have hlen : ((l.drop s).length + s - 1) / s = P := by
      rw [List.length_drop]
      by_cases hls : s ≤ l.length
      · have h1 : l.length - s + s - 1 = l.length - 1 := by omega
        rw [h1]
        have h2 : l.length + s - 1 = l.length - 1 + s := by omega
        rw [h2, Nat.add_div_right _ hs] at hP
        omega
      · have h1 : l.length - s = 0 := by omega
        rw [h1]
        have h2 : (0 + s - 1) / s = 0 := Nat.div_eq_of_lt (by omega)
        have h5 : (l.length + s - 1) / s = 1 := by
          refine Nat.div_eq_of_lt_le (by omega) (by omega)
        omega
    rw [List.range_succ_eq_map, List.map_cons, List.map_map, List.flatten_cons]
    have hfun : ((fun k => (l.drop (k * s)).take s) ∘ Nat.succ) =
        (fun k => (((l.drop s).drop (k * s)).take s)) := by
      funext k
      simp only [Function.comp_apply]
      rw [List.drop_drop]
      have hmul : Nat.succ k * s = s + k * s := by
        rw [Nat.succ_mul]
        ring
      rw [hmul]
    rw [hfun, ih (l.drop s) hlen]
    simp only [Nat.zero_mul, List.drop_zero]
    exact List.take_append_drop s l

/-- Slice helper: page `k + 1` is the `k`-th width-`s` chunk. -/
theorem paginatedResults_eq (l : List ScreeningResult) (k s : ℕ) :
    paginatedResults l (k + 1) s = (l.drop (k * s)).take s := by
  simp only [paginatedResults, jsSlice, startIndex, endIndex, Nat.add_sub_cancel]
  have h2 : min (k * s + s) l.length - k * s = min s (l.length - k * s) := by
    generalize k * s = a
    omega
  rw [h2]
  have h3 : l.length - k * s = (l.drop (k * s)).length := (List.length_drop _ _).symm
  rw [h3, ← List.take_take, List.take_length]

/-- C9: for every result set, filter and positive page size, the page
slices for pages `1` through `totalPages` concatenate to exactly the
filtered sequence in its original order — every filtered result appears on
exactly one page. -/
theorem pagination_partitions (results : List ScreeningResult) (filterType : String)
    (pageSize : ℕ) (hs : 0 < pageSize) :
    ((List.range (totalPages (filteredResults (some results) filterType).length pageSize)).map
        (fun k => paginatedResults (filteredResults (some results) filterType) (k + 1) pageSize)).flatten
      = filteredResults (some results) filterType := by
  rw [totalPages_eq _ _ hs]
  have hfun : (fun k => paginatedResults (filteredResults (some results) filterType) (k + 1) pageSize) =
      (fun k => ((filteredResults (some results) filterType).drop (k * pageSize)).take pageSize) := by
    funext k
    exact paginatedResults_eq _ k pageSize
  rw [hfun]
  exact pages_join pageSize hs _

/-- C9 (witness): splitting five results (one hit, filter `all`) into pages
of size two partitions them. -/
theorem pagination_partitions_witness :
    ((List.range (totalPages (filteredResults (some (sampleHit :: sampleThree ++ [sampleClear]))
          "all").length 2)).map
        (fun k => paginatedResults (filteredResults (some (sampleHit :: sampleThree ++ [sampleClear]))
          "all") (k + 1) 2)).flatten
      = filteredResults (some (sampleHit :: sampleThree ++ [sampleClear])) "all" :=
  pagination_partitions (sampleHit :: sampleThree ++ [sampleClear]) "all" 2 (by norm_num)

/-- Helper: `filterMap` over `get?` ignores out-of-range indices. -/
theorem filterMap_getQ_filter_lt (results : List ScreeningResult) (L : List ℕ) :
    L.filterMap (fun i => results.get? i) =
      (L.filter (fun i => decide (i < results.length))).filterMap (fun i => results.get? i) := by
  induction L with
  | nil => rfl
  | cons i L ih =>
    by_cases hi : i < results.length
    · rw [List.filter_cons_of_pos (by simpa using hi), List.filterMap_cons, List.filterMap_cons]
      cases h : results.get? i <;> simp only [h, ih]
    · have hnone : results.get? i = none := List.get?_eq_none.mpr (by omega)
      rw [List.filter_cons_of_neg (by simpa using hi), List.filterMap_cons, hnone]
      exact ih

/-- Helper: the sorted selection restricted to valid indices is the
ascending enumeration of the selected positions. -/
theorem sorted_sel_filter_eq_range_filter (n : ℕ) (sel : List ℕ) (hnd : sel.Nodup) :
    (List.insertionSort (· ≤ ·) sel).filter (fun i => decide (i < n)) =
      (List.range n).filter (fun i => decide (i ∈ sel)) := by
  have hsort := List.sorted_insertionSort (· ≤ ·) sel
  have hperm := List.perm_insertionSort (· ≤ ·) sel
  have hnd1 : (List.insertionSort (· ≤ ·) sel).Nodup := hperm.nodup_iff.mpr hnd
  have h1 : List.Sorted (· ≤ ·) ((List.insertionSort (· ≤ ·) sel).filter
      (fun i => decide (i < n))) := List.Pairwise.filter _ hsort
  have h2 : List.Sorted (· ≤ ·) ((List.range n).filter (fun i => decide (i ∈ sel))) := by
    refine List.Pairwise.filter _ ?_
    exact (List.sorted_lt_range n).imp (fun h => le_of_lt h)
  have d1 : ((List.insertionSort (· ≤ ·) sel).filter (fun i => decide (i < n))).Nodup :=
    hnd1.filter _
  have d2 : ((List.range n).filter (fun i => decide (i ∈ sel))).Nodup :=
    (List.nodup_range n).filter _
  refine List.eq_of_perm_of_sorted ?_ h1 h2
  refine (List.perm_ext_iff_of_nodup d1 d2).mpr ?_
  intro a
  simp only [List.mem_filter, List.mem_range, decide_eq_true_eq, hperm.mem_iff]
  tauto

/-- C7: the report payload of `printSelected` lists the selected results at
their original input-order positions in ascending order — it equals the
ascending enumeration of the selected positions — and is invariant under
the order in which the selection was toggled together. -/
theorem printSelected_ascending_input_order (results : List ScreeningResult)
    (sel sel' : List ℕ) (hne : sel ≠ []) (hnd : sel.Nodup) (hperm : List.Perm sel sel') :
    printSelectedData results sel =
      ((List.range results.length).filter (fun i => decide (i ∈ sel))).filterMap
        (fun i => results.get? i) ∧
    printSelectedData results sel = printSelectedData results sel' := by
  constructor
  · unfold printSelectedData
    rw [filterMap_getQ_filter_lt, sorted_sel_filter_eq_range_filter _ _ hnd]
  · unfold printSelectedData
    have heq : List.insertionSort (· ≤ ·) sel = List.insertionSort (· ≤ ·) sel' := by
      refine List.eq_of_perm_of_sorted ?_
        (List.sorted_insertionSort (· ≤ ·) sel) (List.sorted_insertionSort (· ≤ ·) sel')
      exact ((List.perm_insertionSort (· ≤ ·) sel).trans hperm).trans
        (List.perm_insertionSort (· ≤ ·) sel').symm
    rw [heq]

/-- C7 (witness): selecting indices `2` then `0` over the three-result
batch prints rows `0` and `2` in input order, the same as selecting `0`
then `2`. -/
theorem printSelected_ascending_input_order_witness :
    printSelectedData sampleThree [2, 0] =
      ((List.range sampleThree.length).filter (fun i => decide (i ∈ [2, 0]))).filterMap
        (fun i => sampleThree.get? i) ∧
    printSelectedData sampleThree [2, 0] = printSelectedData sampleThree [0, 2] :=
  printSelected_ascending_input_order sampleThree [2, 0] [0, 2]
    (by decide) (by decide) (by decide)

/-- C10: `toggleSelection`'s set update adds the index when absent and
removes it when present, leaves every other index unchanged, and applied
twice at the same index restores the original selection set. -/
theorem toggleSelection_add_remove_involution (s : Finset ℕ) (i j : ℕ) (hj : j ≠ i) :
    ((i ∈ toggleSelectionUpdate s i) ↔ i ∉ s) ∧
    ((j ∈ toggleSelectionUpdate s i) ↔ j ∈ s) ∧
    toggleSelectionUpdate (toggleSelectionUpdate s i) i = s := by
  unfold toggleSelectionUpdate
  by_cases h : i ∈ s
  · simp only [if_pos h]
    refine ⟨by simp [h], by simp [Finset.mem_erase, hj], ?_⟩
    have hni : i ∉ s.erase i := Finset.not_mem_erase i s
    simp only [if_neg hni]
    exact Finset.insert_erase h
  · simp only [if_neg h]
    refine ⟨by simp [h], by simp [Finset.mem_insert, hj], ?_⟩
    have hii : i ∈ insert i s := Finset.mem_insert_self i s
    simp only [if_pos hii]
    exact Finset.erase_insert h

/-- C10 (witness): toggling index `2` in the selection `{1, 2}` removes it,
leaves `1` selected, and toggling twice restores `{1, 2}`. -/
theorem toggleSelection_add_remove_involution_witness :
    ((2 ∈ toggleSelectionUpdate {1, 2} 2) ↔ 2 ∉ ({1, 2} : Finset ℕ)) ∧
    ((1 ∈ toggleSelectionUpdate {1, 2} 2) ↔ 1 ∈ ({1, 2} : Finset ℕ)) ∧
    toggleSelectionUpdate (toggleSelectionUpdate {1, 2} 2) 2 = {1, 2} :=
  toggleSelection_add_remove_involution {1, 2} 2 1 (by decide)

/-! ### CSV round trip (C8) -/

theorem step_nil (cur : JStr) (inQ : Bool) (vals : List JStr) :
    parseCSVLoop [] cur inQ vals = vals ++ [jsTrim cur] := by
  simp [parseCSVLoop]

theorem step_other (c : Char) (hq : c ≠ '"') (hc : c ≠ ',') (rest cur : JStr)
    (inQ : Bool) (vals : List JStr) :
    parseCSVLoop (c :: rest) cur inQ vals = parseCSVLoop rest (cur ++ [c]) inQ vals := by
  rw [parseCSVLoop.eq_def]
  simp [hq, hc]

theorem step_comma_outside (rest cur : JStr) (vals : List JStr) :
    parseCSVLoop (',' :: rest) cur false vals =
      parseCSVLoop rest [] false (vals ++ [jsTrim cur]) := by
  rw [parseCSVLoop.eq_def]
  simp

theorem step_comma_inside (rest cur : JStr) (vals : List JStr) :
    parseCSVLoop (',' :: rest) cur true vals = parseCSVLoop rest (cur ++ [',']) true vals := by
  rw [parseCSVLoop.eq_def]
  simp

theorem step_quote_open (rest cur : JStr) (vals : List JStr) :
    parseCSVLoop ('"' :: rest) cur false vals = parseCSVLoop rest cur true vals := by
  rw [parseCSVLoop.eq_def]
  simp

theorem step_quote_escaped (rest cur : JStr) (vals : List JStr) :
    parseCSVLoop ('"' :: '"' :: rest) cur true vals =
      parseCSVLoop rest (cur ++ ['"']) true vals := by
  rw [parseCSVLoop.eq_def]
  simp

theorem step_quote_close (c2 : Char) (h : c2 ≠ '"') (rest cur : JStr) (vals : List JStr) :
    parseCSVLoop ('"' :: c2 :: rest) cur true vals =
      parseCSVLoop (c2 :: rest) cur false vals := by
  rw [parseCSVLoop.eq_def]
  simp [h]

theorem step_quote_close_end (cur : JStr) (vals : List JStr) :
    parseCSVLoop ['"'] cur true vals = vals ++ [jsTrim cur] := by
  rw [parseCSVLoop.eq_def]
  simp [step_nil]

theorem scan_noSpecial (f : JStr) (hf : ∀ c ∈ f, c ≠ '"' ∧ c ≠ ',') :
    ∀ (t cur : JStr) (vals : List JStr),
      parseCSVLoop (f ++ t) cur false vals = parseCSVLoop t (cur ++ f) false vals := by
  induction f with
  | nil => intro t cur vals; simp
  | cons c f ih =>
    intro t cur vals
    obtain ⟨hq, hc⟩ := hf c (by simp)
    rw [List.cons_append, step_other c hq hc, ih (fun d hd => hf d (by simp [hd]))]
    simp

theorem scan_quoted (f : JStr) :
    ∀ (t cur : JStr) (vals : List JStr),
      parseCSVLoop (doubleQuotes f ++ t) cur true vals = parseCSVLoop t (cur ++ f) true vals := by
  induction f with
  | nil => intro t cur vals; simp [doubleQuotes]
  | cons c f ih =>
    intro t cur vals
    by_cases hq : c = '"'
    · subst hq
      have hd : doubleQuotes ('"' :: f) = '"' :: '"' :: doubleQuotes f := by
        simp [doubleQuotes]
      rw [hd, List.cons_append, List.cons_append, step_quote_escaped, ih]
      simp
    · have hd : doubleQuotes (c :: f) = c :: doubleQuotes f := by
        simp [doubleQuotes, hq]
      rw [hd, List.cons_append]
      by_cases hc : c = ','
      · subst hc
        rw [step_comma_inside, ih]
        simp
      · rw [step_other c hq hc, ih]
        simp

theorem needsQuoting_chars (f : JStr) (h : needsQuoting f = false) :
    ∀ c ∈ f, c ≠ '"' ∧ c ≠ ',' := by
  simp only [needsQuoting, List.any_eq_false, decide_eq_true_eq] at h
  intro c hc
  have hn := h c hc
  constructor
  · intro heq
    exact hn (by subst heq; tauto)
  · intro heq
    exact hn (by subst heq; tauto)

theorem scan_escaped_comma (f : JStr) (hf : jsTrim f = f) (T : JStr) (vals : List JStr) :
    parseCSVLoop (escapeCSVFieldL (some f) ++ ',' :: T) [] false vals =
      parseCSVLoop T [] false (vals ++ [f]) := by
  unfold escapeCSVFieldL
  by_cases hnq : needsQuoting f
  · simp only [hnq, if_true]
    rw [List.cons_append, step_quote_open, List.append_assoc, scan_quoted]
    simp only [List.nil_append, List.cons_append]
    rw [step_quote_close ',' (by decide), step_comma_outside, hf]
  · rw [Bool.not_eq_true] at hnq
    simp only [hnq, Bool.false_eq_true, if_false]
    rw [scan_noSpecial f (needsQuoting_chars f hnq), List.nil_append, step_comma_outside, hf]

theorem scan_escaped_end (f : JStr) (hf : jsTrim f = f) (vals : List JStr) :
    parseCSVLoop (escapeCSVFieldL (some f)) [] false vals = vals ++ [f] := by
  unfold escapeCSVFieldL
  by_cases hnq : needsQuoting f
  · simp only [hnq, if_true]
    rw [step_quote_open, scan_quoted, List.nil_append, step_quote_close_end, hf]
  · rw [Bool.not_eq_true] at hnq
    simp only [hnq, Bool.false_eq_true, if_false]
    calc parseCSVLoop f [] false vals
        = parseCSVLoop (f ++ []) [] false vals := by rw [List.append_nil]
      _ = parseCSVLoop [] ([] ++ f) false vals :=
          scan_noSpecial f (needsQuoting_chars f hnq) [] [] vals
      _ = vals ++ [jsTrim ([] ++ f)] := step_nil ([] ++ f) false vals
      _ = vals ++ [f] := by rw [List.nil_append, hf]

theorem roundtrip_aux (fields : List JStr) (f0 : JStr) :
    jsTrim f0 = f0 → (∀ f ∈ fields, jsTrim f = f) → ∀ vals : List JStr,
    parseCSVLoop (joinComma ((f0 :: fields).map (fun f => escapeCSVFieldL (some f)))) [] false vals
      = vals ++ f0 :: fields := by
  induction fields generalizing f0 with
  | nil =>
    intro hf0 _ vals
    simp only [List.map_cons, List.map_nil, joinComma]
    exact scan_escaped_end f0 hf0 vals
  | cons f1 fs ih =>
    intro hf0 hfs vals
    have hjoin : joinComma ((f0 :: f1 :: fs).map (fun f => escapeCSVFieldL (some f))) =
        escapeCSVFieldL (some f0) ++
          ',' :: joinComma ((f1 :: fs).map (fun f => escapeCSVFieldL (some f))) := by
      simp only [List.map_cons, joinComma]
    rw [hjoin, scan_escaped_comma f0 hf0,
      ih f1 (hfs f1 (by simp)) (fun f hf => hfs f (by simp [hf]))]
    simp

theorem needsQuoting_iff (f : JStr) : needsQuoting f = true ↔ containsSpecial f := by
  simp only [needsQuoting, containsSpecial, List.any_eq_true, decide_eq_true_eq]
  constructor
  · rintro ⟨c, hc, h | h | h | h⟩ <;> subst h
    · exact Or.inl hc
    · exact Or.inr (Or.inl hc)
    · exact Or.inr (Or.inr (Or.inl hc))
    · exact Or.inr (Or.inr (Or.inr hc))
  · rintro (h | h | h | h)
    · exact ⟨',', h, Or.inl rfl⟩
    · exact ⟨'"', h, Or.inr (Or.inl rfl)⟩
    · exact ⟨'\n', h, Or.inr (Or.inr (Or.inl rfl))⟩
    · exact ⟨'\r', h, Or.inr (Or.inr (Or.inr rfl))⟩

/-- C8: `escapeCSVField` maps `null`/`undefined` to the empty string, wraps
a field in doubled-quote form exactly when it contains a comma, double
quote, newline or carriage return, and otherwise returns it unchanged; and
for every non-empty row of fields with no leading or trailing whitespace,
`parseCSVLine` applied to the comma-join of the escaped fields returns
exactly the original fields. -/
theorem csv_escape_roundtrip :
    (escapeCSVFieldL none = []) ∧
    (∀ f : JStr,
      (escapeCSVFieldL (some f) = '"' :: (doubleQuotes f ++ ['"']) ↔ containsSpecial f) ∧
      (¬ containsSpecial f → escapeCSVFieldL (some f) = f)) ∧
    (∀ fields : List JStr, fields ≠ [] → (∀ f ∈ fields, jsTrim f = f) →
      parseCSVLineL (joinComma (fields.map (fun f => escapeCSVFieldL (some f)))) = fields) := by
  refine ⟨rfl, ?_, ?_⟩
  · intro f
    constructor
    · constructor
      · intro heq
        by_cases hnq : needsQuoting f
        · exact (needsQuoting_iff f).mp hnq
        · rw [Bool.not_eq_true] at hnq
          simp only [escapeCSVFieldL, hnq, Bool.false_eq_true, if_false] at heq
          have hqin : '"' ∈ f := by rw [heq]; simp
          exact Or.inr (Or.inl hqin)
      · intro hcs
        have hnq : needsQuoting f = true := (needsQuoting_iff f).mpr hcs
        simp [escapeCSVFieldL, hnq]
    · intro hncs
      have hnq : needsQuoting f = false := by
        rw [← Bool.not_eq_true, needsQuoting_iff]
        exact hncs
      simp [escapeCSVFieldL, hnq]
  · intro fields hne hfs
    obtain ⟨f0, fs, rfl⟩ := List.exists_cons_of_ne_nil hne
    unfold parseCSVLineL
    exact roundtrip_aux fs f0 (hfs f0 (by simp)) (fun f hf => hfs f (by simp [hf])) []

/-- C8 (witness): the row `a,b` / `say "hi"` / `plain` round-trips. -/
theorem csv_escape_roundtrip_witness :
    parseCSVLineL (joinComma (["a,b".data, "say \"hi\"".data, "plain".data].map
        (fun f => escapeCSVFieldL (some f)))) =
      ["a,b".data, "say \"hi\"".data, "plain".data] :=
  csv_escape_roundtrip.2.2 ["a,b".data, "say \"hi\"".data, "plain".data]
    (by decide) (by decide)

end SanctionsCheck
